import Mathlib

/-!
Verification of `experiment_scripts/run_shuffle_jobs.py` (spark-monotasks).

The script is a parameter-sweep driver: it iterates over a list of
`items_per_partition` values and a list of task-count multipliers, builds a
shell command for each combination, prints it, runs it synchronously
(aborting the whole sweep on a nonzero exit status), and after each
successful run calls a log archiver with the stringified parameters and the
worker-host ("slaves") list parsed from a configuration file.  At the end it
prints the total wall-clock duration.

The embedding below models the script as a pure function producing a trace
of observable events (`printed` lines, external `invoked` commands,
`archived` calls), parameterized by an exit-status oracle for the external
process and by a rational-valued clock (start timestamp plus a list of
per-iteration durations, standing in for the float-valued `time.time()`
samples).
-/

namespace RunShuffleJobs

/-- The newline character, used by `readlines` and `strip("\n")`. -/
def newlineChar : Char := Char.ofNat 10

/-- A one-character newline string. -/
def newlineStr : String := String.mk [newlineChar]

/-- Python 2 `file.readlines`, on a List Char: split the content into lines,
each line keeping its terminating newline; a final unterminated chunk is kept
as a last line; the accumulator holds the current line reversed. -/
def readlinesAux : List Char → List Char → List String
  | [], acc => if acc.isEmpty then [] else [String.mk acc.reverse]
  | c :: cs, acc =>
      if c = newlineChar then
        String.mk (acc.reverse ++ [c]) :: readlinesAux cs []
      else
        readlinesAux cs (c :: acc)

/-- Python 2 `file.readlines` on the file content. -/
def readlines (content : String) : List String :=
  readlinesAux content.toList []

/-- Python `str.strip("\n")`: remove newline characters (only) from both ends
of the string. -/
def pyStripNewlines (s : String) : String :=
  String.mk ((((s.toList.dropWhile fun c => c = newlineChar).reverse.dropWhile
      fun c => c = newlineChar)).reverse)

/-- The `slaves` list of the script:
`[slave_line.strip("\n") for slave_line in open(...).readlines()]`. -/
def slavesOf (content : String) : List String :=
  (readlines content).map pyStripNewlines

/-- One heterogeneous entry of the script's `parameters` list (a Python int
or bool). -/
inductive PyVal where
  | int (n : Int)
  | bool (b : Bool)
deriving DecidableEq, Repr

/-- Python `"{}".format(p)` on an int or bool. -/
def pyFormat : PyVal → String
  | .int n => toString n
  | .bool b => if b then "True" else "False"

/-- The module-level constants of the script that the sweep reads, kept
with their source names.  The source fixes them to the literal values of
`literalConfig` below; the claims quantify over them where they speak of
"every list of values". -/
structure Config where
  num_machines : Int
  cores_per_machine : Int
  items_per_partition_values : List Int
  num_tasks_multiplier_values : List Int
  longs_per_value : Int
  num_shuffles : Int
  sortByKey : Bool
  cacheRdd : Bool
deriving Repr

/-- `base_num_map_tasks = num_machines * cores_per_machine`. -/
def base_num_map_tasks (cfg : Config) : Int :=
  cfg.num_machines * cfg.cores_per_machine

/-- `base_num_reduce_tasks = num_machines * cores_per_machine`. -/
def base_num_reduce_tasks (cfg : Config) : Int :=
  cfg.num_machines * cfg.cores_per_machine

/-- `num_reduce_tasks = num_tasks_multiplier * base_num_reduce_tasks`. -/
def num_reduce_tasks (cfg : Config) (num_tasks_multiplier : Int) : Int :=
  num_tasks_multiplier * base_num_reduce_tasks cfg

/-- `num_map_tasks = num_tasks_multiplier * base_num_map_tasks`. -/
def num_map_tasks (cfg : Config) (num_tasks_multiplier : Int) : Int :=
  num_tasks_multiplier * base_num_map_tasks cfg

/-- The literal values assigned at the top of the script. -/
def literalConfig : Config where
  num_machines := 1
  cores_per_machine := 8
  items_per_partition_values := [8000000]
  num_tasks_multiplier_values := [1, 2, 4, 8, 16, 32]
  longs_per_value := 6
  num_shuffles := 6
  sortByKey := false
  cacheRdd := false

/-- `parameters = [num_map_tasks, num_reduce_tasks, items_per_partition,
longs_per_value, num_shuffles, sortByKey, cacheRdd]`. -/
def parameters (cfg : Config) (items_per_partition num_tasks_multiplier : Int) :
    List PyVal :=
  [ .int (num_map_tasks cfg num_tasks_multiplier),
    .int (num_reduce_tasks cfg num_tasks_multiplier),
    .int items_per_partition,
    .int cfg.longs_per_value,
    .int cfg.num_shuffles,
    .bool cfg.sortByKey,
    .bool cfg.cacheRdd ]

/-- `stringified_parameters = ["{}".format(p) for p in parameters]`. -/
def stringified_parameters (cfg : Config)
    (items_per_partition num_tasks_multiplier : Int) : List String :=
  (parameters cfg items_per_partition num_tasks_multiplier).map pyFormat

/-- `command = "/root/spark/bin/run-example monotasks.ShuffleJob {}".format(
" ".join(stringified_parameters))`. -/
def command (cfg : Config) (items_per_partition num_tasks_multiplier : Int) :
    String :=
  "/root/spark/bin/run-example monotasks.ShuffleJob " ++
    String.intercalate " " (stringified_parameters cfg items_per_partition
      num_tasks_multiplier)

/-- The per-combination banner
`"*************Running experiment with {} shuffle values".format(...)`. -/
def experimentBanner (items_per_partition : Int) : String :=
  "*************Running experiment with " ++ toString items_per_partition ++
    " shuffle values"

/-- An observable action of the script: a line printed to standard output, a
synchronous external invocation (`subprocess.check_call`), or a call to
`utils.copy_and_zip_all_logs`. -/
inductive Event where
  | printed (line : String)
  | invoked (cmd : String)
  | archived (params : List String) (slaves : List String)
deriving DecidableEq, Repr

/-- One loop body iteration: print the banner, print the command, invoke the
external process; when its exit status is zero, call the archiver and
continue, otherwise `check_call` raises and the sweep aborts. -/
def runCombo (cfg : Config) (slaves : List String) (ex : String → Int)
    (items_per_partition num_tasks_multiplier : Int) : List Event × Bool :=
  let cmd := command cfg items_per_partition num_tasks_multiplier
  let pre := [Event.printed (experimentBanner items_per_partition),
              Event.printed cmd, Event.invoked cmd]
  if ex cmd = 0 then
    (pre ++ [Event.archived
      (stringified_parameters cfg items_per_partition num_tasks_multiplier)
      slaves], true)
  else
    (pre, false)

/-- The inner loop `for num_tasks_multiplier in num_tasks_multiplier_values`,
cut short by an uncaught `CalledProcessError` (second component `false`). -/
def runInner (cfg : Config) (slaves : List String) (ex : String → Int)
    (items_per_partition : Int) : List Int → List Event × Bool
  | [] => ([], true)
  | m :: ms =>
      match runCombo cfg slaves ex items_per_partition m with
      | (ev, true) =>
          let r := runInner cfg slaves ex items_per_partition ms
          (ev ++ r.1, r.2)
      | (ev, false) => (ev, false)

/-- The outer loop `for items_per_partition in items_per_partition_values`. -/
def runOuter (cfg : Config) (slaves : List String) (ex : String → Int) :
    List Int → List Event × Bool
  | [] => ([], true)
  | i :: is =>
      match runInner cfg slaves ex i cfg.num_tasks_multiplier_values with
      | (ev, true) =>
          let r := runOuter cfg slaves ex is
          (ev ++ r.1, r.2)
      | (ev, false) => (ev, false)

/-- The whole nested sweep over the configured value lists. -/
def sweep (cfg : Config) (slaves : List String) (ex : String → Int) :
    List Event × Bool :=
  runOuter cfg slaves ex cfg.items_per_partition_values

/-- An exit-status oracle making every external invocation succeed. -/
def exit0 : String → Int := fun _ => 0

/-- A single-quote character (for the Python `repr` of a string). -/
def singleQuoteChar : Char := Char.ofNat 39

/-- Python `repr` of a hostname string (model: always single-quoted; escaping
of quote characters inside hostnames is not modelled). -/
def pyReprStr (s : String) : String :=
  String.mk [singleQuoteChar] ++ s ++ String.mk [singleQuoteChar]

/-- Python `"%s" % slaves` for a list of strings. -/
def pyReprList (l : List String) : String :=
  "[" ++ String.intercalate ", " (l.map pyReprStr) ++ "]"

/-- The startup line `"Running experiment assuming slaves %s" % slaves`. -/
def slavesHeader (slaves : List String) : String :=
  "Running experiment assuming slaves " ++ pyReprList slaves

/-- The sweep timer: `start = time.time()` before the loops, `end =
time.time()` after them, `completion = (end - start)`.  The wall clock is
modelled as the start timestamp plus the accumulated per-iteration
durations. -/
def timerReport (start : Rat) (delays : List Rat) : Rat :=
  (start + delays.sum) - start

/-- The final line `"Matrix script took" + str(completion)`. -/
def timeLine (start : Rat) (delays : List Rat) : String :=
  "Matrix script took" ++ toString (timerReport start delays)

/-- The whole script run: parse the slaves file, print the startup line, run
the sweep and, when no invocation failed, print the elapsed-time line; a
failed invocation propagates out before the final print. -/
def runScript (cfg : Config) (slavesFileContent : String) (ex : String → Int)
    (start : Rat) (delays : List Rat) : List Event × Bool :=
  let slaves := slavesOf slavesFileContent
  let header := Event.printed (slavesHeader slaves)
  let r := sweep cfg slaves ex
  if r.2 then
    (header :: r.1 ++ [Event.printed (timeLine start delays)], true)
  else
    (header :: r.1, false)

/-- The flattened combination list of two value lists: outer loop order over
data sizes, inner loop order over multipliers. -/
def combosOf (is ms : List Int) : List (Int × Int) :=
  (is.map fun i => ms.map fun m => (i, m)).flatten

/-- The flattened combination list of a configuration. -/
def combos (cfg : Config) : List (Int × Int) :=
  combosOf cfg.items_per_partition_values cfg.num_tasks_multiplier_values

/-- The events of one fully successful loop iteration. -/
def comboBlockOk (cfg : Config) (slaves : List String)
    (items_per_partition num_tasks_multiplier : Int) : List Event :=
  [ Event.printed (experimentBanner items_per_partition),
    Event.printed (command cfg items_per_partition num_tasks_multiplier),
    Event.invoked (command cfg items_per_partition num_tasks_multiplier),
    Event.archived
      (stringified_parameters cfg items_per_partition num_tasks_multiplier)
      slaves ]

/-- The events of a loop iteration whose external invocation fails. -/
def comboBlockFail (cfg : Config)
    (items_per_partition num_tasks_multiplier : Int) : List Event :=
  [ Event.printed (experimentBanner items_per_partition),
    Event.printed (command cfg items_per_partition num_tasks_multiplier),
    Event.invoked (command cfg items_per_partition num_tasks_multiplier) ]

/-- The commands passed to `subprocess.check_call`, in trace order. -/
def invokedCmds (es : List Event) : List String :=
  es.filterMap fun e =>
    match e with
    | .invoked c => some c
    | _ => none

/-- The stringified-parameter lists passed to the archiver, in trace order. -/
def archivedParams (es : List Event) : List (List String) :=
  es.filterMap fun e =>
    match e with
    | .archived p _ => some p
    | _ => none

/-- The slave lists passed to the archiver, in trace order. -/
def archivedSlaves (es : List Event) : List (List String) :=
  es.filterMap fun e =>
    match e with
    | .archived _ sl => some sl
    | _ => none

/-- The lines printed to standard output, in trace order. -/
def printedLines (es : List Event) : List String :=
  es.filterMap fun e =>
    match e with
    | .printed l => some l
    | _ => none

/-- Checks that every external invocation in the trace is immediately
followed by an archiver call. -/
def invokesArchived : List Event → Bool
  | [] => true
  | Event.invoked _ :: Event.archived _ _ :: rest => invokesArchived rest
  | Event.invoked _ :: _ => false
  | _ :: rest => invokesArchived rest

/-! ### Trace lemmas -/

theorem runCombo_ok (cfg : Config) (slaves : List String) (ex : String → Int)
    (i m : Int) (h : ex (command cfg i m) = 0) :
    runCombo cfg slaves ex i m = (comboBlockOk cfg slaves i m, true) := by
  simp [runCombo, comboBlockOk, h]

theorem runCombo_fail (cfg : Config) (slaves : List String) (ex : String → Int)
    (i m : Int) (h : ex (command cfg i m) ≠ 0) :
    runCombo cfg slaves ex i m = (comboBlockFail cfg i m, false) := by
  simp [runCombo, comboBlockFail, h]

theorem runInner_ok (cfg : Config) (slaves : List String) (ex : String → Int)
    (i : Int) (ms : List Int) (h : ∀ m ∈ ms, ex (command cfg i m) = 0) :
    runInner cfg slaves ex i ms =
      ((ms.map fun m => comboBlockOk cfg slaves i m).flatten, true) := by
  induction ms with
  | nil => simp [runInner]
  | cons m ms ih =>
      have hm : ex (command cfg i m) = 0 := h m (List.mem_cons_self m ms)
      have hms : ∀ m0 ∈ ms, ex (command cfg i m0) = 0 := fun m0 hm0 =>
        h m0 (List.mem_cons_of_mem m hm0)
      simp [runInner, runCombo_ok cfg slaves ex i m hm, ih hms]

theorem runOuter_ok (cfg : Config) (slaves : List String) (ex : String → Int)
    (is : List Int)
    (h : ∀ i ∈ is, ∀ m ∈ cfg.num_tasks_multiplier_values,
      ex (command cfg i m) = 0) :
    runOuter cfg slaves ex is =
      ((is.map fun i =>
        (cfg.num_tasks_multiplier_values.map fun m =>
          comboBlockOk cfg slaves i m).flatten).flatten, true) := by
  induction is with
  | nil => simp [runOuter]
  | cons i is ih =>
      have hi := h i (List.mem_cons_self i is)
      have his : ∀ i0 ∈ is, ∀ m ∈ cfg.num_tasks_multiplier_values,
          ex (command cfg i0 m) = 0 := fun i0 hi0 => h i0 (List.mem_cons_of_mem i hi0)
      simp [runOuter, runInner_ok cfg slaves ex i _ hi, ih his]

theorem flatten_map_pair {α : Type} (B : Int → Int → List α)
    (is ms : List Int) :
    ((combosOf is ms).map fun p => B p.1 p.2).flatten
      = (is.map fun i => (ms.map fun m => B i m).flatten).flatten := by
  rw [combosOf]
  induction is with
  | nil => rfl
  | cons i is ih =>
      simp only [List.map_cons, List.flatten_cons, List.map_append,
        List.flatten_append]
      rw [ih, List.map_map]
      rfl

theorem sweep_ok (cfg : Config) (slaves : List String) (ex : String → Int)
    (h : ∀ i ∈ cfg.items_per_partition_values,
      ∀ m ∈ cfg.num_tasks_multiplier_values, ex (command cfg i m) = 0) :
    sweep cfg slaves ex =
      (((combos cfg).map fun p => comboBlockOk cfg slaves p.1 p.2).flatten,
        true) := by
  rw [sweep, runOuter_ok cfg slaves ex _ h, combos,
    flatten_map_pair (fun i m => comboBlockOk cfg slaves i m)]

theorem sweep_exit0 (cfg : Config) (slaves : List String) :
    sweep cfg slaves exit0 =
      (((combos cfg).map fun p => comboBlockOk cfg slaves p.1 p.2).flatten,
        true) :=
  sweep_ok cfg slaves exit0 (fun _ _ _ _ => rfl)

theorem invokedCmds_append (l1 l2 : List Event) :
    invokedCmds (l1 ++ l2) = invokedCmds l1 ++ invokedCmds l2 :=
  List.filterMap_append l1 l2 _

theorem invokedCmds_flatten (l : List (List Event)) :
    invokedCmds l.flatten = (l.map invokedCmds).flatten := by
  induction l with
  | nil => rfl
  | cons x l ih => simp [invokedCmds_append, ih]

theorem invokedCmds_comboBlockOk (cfg : Config) (slaves : List String)
    (i m : Int) : invokedCmds (comboBlockOk cfg slaves i m) =
      [command cfg i m] := rfl

theorem archivedParams_append (l1 l2 : List Event) :
    archivedParams (l1 ++ l2) = archivedParams l1 ++ archivedParams l2 :=
  List.filterMap_append l1 l2 _

theorem archivedParams_flatten (l : List (List Event)) :
    archivedParams l.flatten = (l.map archivedParams).flatten := by
  induction l with
  | nil => rfl
  | cons x l ih => simp [archivedParams_append, ih]

theorem printedLines_append (l1 l2 : List Event) :
    printedLines (l1 ++ l2) = printedLines l1 ++ printedLines l2 :=
  List.filterMap_append l1 l2 _

theorem printedLines_cons_printed (l : String) (rest : List Event) :
    printedLines (Event.printed l :: rest) = l :: printedLines rest := rfl

theorem printedLines_flatten (l : List (List Event)) :
    printedLines l.flatten = (l.map printedLines).flatten := by
  induction l with
  | nil => rfl
  | cons x l ih => simp [printedLines_append, ih]

theorem invokesArchived_comboBlockOk_append (cfg : Config)
    (slaves : List String) (i m : Int) (rest : List Event) :
    invokesArchived (comboBlockOk cfg slaves i m ++ rest) =
      invokesArchived rest := by
  simp [comboBlockOk, invokesArchived]

theorem invokesArchived_okBlocks (cfg : Config) (slaves : List String)
    (ps : List (Int × Int)) :
    invokesArchived
      ((ps.map fun p => comboBlockOk cfg slaves p.1 p.2).flatten) = true := by
  induction ps with
  | nil => rfl
  | cons p ps ih =>
      simp only [List.map_cons, List.flatten_cons]
      rw [invokesArchived_comboBlockOk_append]
      exact ih

theorem combosOf_length (is ms : List Int) :
    (combosOf is ms).length = is.length * ms.length := by
  rw [combosOf]
  induction is with
  | nil => simp
  | cons i is ih =>
      simp only [List.map_cons, List.flatten_cons, List.length_append,
        List.length_map, List.length_cons, ih, Nat.succ_mul]
      ring

theorem combos_length (cfg : Config) :
    (combos cfg).length = cfg.items_per_partition_values.length *
      cfg.num_tasks_multiplier_values.length :=
  combosOf_length _ _

/-! ### Parsing lemmas for the slaves file -/

theorem readlinesAux_line (l : List Char) (hl : newlineChar ∉ l)
    (cs acc : List Char) :
    readlinesAux (l ++ newlineChar :: cs) acc =
      String.mk (acc.reverse ++ (l ++ [newlineChar])) :: readlinesAux cs [] := by
  induction l generalizing acc with
  | nil => simp [readlinesAux]
  | cons c l ih =>
      have hc : ¬ c = newlineChar := fun h => hl (h ▸ List.mem_cons_self c l)
      have hl2 : newlineChar ∉ l := fun h => hl (List.mem_cons_of_mem c h)
      simp [readlinesAux, hc, ih hl2]

theorem readlines_terminated (hs : List String)
    (h : ∀ s ∈ hs, newlineChar ∉ s.toList) :
    readlines (String.mk ((hs.map fun s => s.toList ++ [newlineChar]).flatten))
      = hs.map fun s => String.mk (s.toList ++ [newlineChar]) := by
  rw [readlines]
  show readlinesAux ((hs.map fun s => s.toList ++ [newlineChar]).flatten) [] = _
  induction hs with
  | nil => rfl
  | cons s hs ih =>
      have hhead := h s (List.mem_cons_self s hs)
      have htail : ∀ s0 ∈ hs, newlineChar ∉ s0.toList := fun s0 hs0 =>
        h s0 (List.mem_cons_of_mem s hs0)
      simp only [List.map_cons, List.flatten_cons, List.append_assoc,
        List.cons_append, List.nil_append]
      rw [readlinesAux_line s.toList hhead _ [], ih htail]
      simp

theorem dropWhile_nl_replicate_append (k : Nat) (xs : List Char) :
    (List.replicate k newlineChar ++ xs).dropWhile (fun c => c = newlineChar)
      = xs.dropWhile (fun c => c = newlineChar) := by
  induction k with
  | zero => rfl
  | succ k ih => simp [List.replicate_succ, List.dropWhile_cons, ih]

theorem dropWhile_nl_no_nl (xs : List Char) (h : newlineChar ∉ xs) :
    xs.dropWhile (fun c => c = newlineChar) = xs := by
  cases xs with
  | nil => rfl
  | cons c cs =>
      have hc : ¬ c = newlineChar := fun hc =>
        h (hc ▸ List.mem_cons_self c cs)
      simp [List.dropWhile_cons, hc]

theorem pyStripNewlines_padded (l : List Char) (hl : newlineChar ∉ l)
    (k m : Nat) :
    pyStripNewlines (String.mk (List.replicate k newlineChar ++ l ++
      List.replicate m newlineChar)) = String.mk l := by
  have hmk : (String.mk (List.replicate k newlineChar ++ l ++
      List.replicate m newlineChar)).toList = List.replicate k newlineChar ++ l
        ++ List.replicate m newlineChar := rfl
  rw [pyStripNewlines, hmk, List.append_assoc, dropWhile_nl_replicate_append]
  cases l with
  | nil =>
      have hdrop : List.dropWhile (fun c => c = newlineChar)
          (([] : List Char) ++ List.replicate m newlineChar) = [] := by
        rw [List.nil_append, ← List.append_nil (List.replicate m newlineChar),
          dropWhile_nl_replicate_append]
        rfl
      rw [hdrop]
      rfl
  | cons c cs =>
      have hc : ¬ c = newlineChar := fun hc =>
        hl (hc ▸ List.mem_cons_self c cs)
      rw [List.cons_append, List.dropWhile_cons, if_neg (by simp [hc])]
      rw [← List.cons_append, List.reverse_append, List.reverse_replicate,
        dropWhile_nl_replicate_append,
        dropWhile_nl_no_nl (c :: cs).reverse (by
          intro hmem
          exact hl (List.mem_reverse.mp hmem)),
        List.reverse_reverse]

theorem slavesOf_terminated (hs : List String)
    (h : ∀ s ∈ hs, newlineChar ∉ s.toList) :
    slavesOf (String.mk ((hs.map fun s => s.toList ++ [newlineChar]).flatten))
      = hs := by
  rw [slavesOf, readlines_terminated hs h, List.map_map]
  have hmem : ∀ s ∈ hs, (pyStripNewlines ∘ fun s =>
      String.mk (s.toList ++ [newlineChar])) s = id s := by
    intro s hsmem
    have := pyStripNewlines_padded s.toList (h s hsmem) 0 1
    simpa [List.replicate] using this
  rw [List.map_congr_left hmem, List.map_id]

/-! ### Extraction over successful blocks -/

theorem invokedCmds_okBlocks (cfg : Config) (slaves : List String)
    (ps : List (Int × Int)) :
    invokedCmds ((ps.map fun p => comboBlockOk cfg slaves p.1 p.2).flatten)
      = ps.map fun p => command cfg p.1 p.2 := by
  induction ps with
  | nil => rfl
  | cons p ps ih =>
      simp only [List.map_cons, List.flatten_cons, invokedCmds_append, ih]
      rfl

theorem archivedParams_okBlocks (cfg : Config) (slaves : List String)
    (ps : List (Int × Int)) :
    archivedParams ((ps.map fun p => comboBlockOk cfg slaves p.1 p.2).flatten)
      = ps.map fun p => stringified_parameters cfg p.1 p.2 := by
  induction ps with
  | nil => rfl
  | cons p ps ih =>
      simp only [List.map_cons, List.flatten_cons, archivedParams_append, ih]
      rfl

theorem printedLines_okBlocks (cfg : Config) (slaves : List String)
    (ps : List (Int × Int)) :
    printedLines ((ps.map fun p => comboBlockOk cfg slaves p.1 p.2).flatten)
      = (ps.map fun p =>
          [experimentBanner p.1, command cfg p.1 p.2]).flatten := by
  induction ps with
  | nil => rfl
  | cons p ps ih =>
      simp only [List.map_cons, List.flatten_cons, printedLines_append, ih]
      rfl

/-! ### The aborting sweep -/

theorem runInner_fail (cfg : Config) (slaves : List String) (ex : String → Int)
    (i : Int) (ms1 : List Int) (m : Int) (ms2 : List Int)
    (hok : ∀ m0 ∈ ms1, ex (command cfg i m0) = 0)
    (hfail : ex (command cfg i m) ≠ 0) :
    runInner cfg slaves ex i (ms1 ++ m :: ms2) =
      ((ms1.map fun m0 => comboBlockOk cfg slaves i m0).flatten ++
        comboBlockFail cfg i m, false) := by
  induction ms1 with
  | nil =>
      simp [runInner, runCombo_fail cfg slaves ex i m hfail]
  | cons m0 ms1 ih =>
      have h0 : ex (command cfg i m0) = 0 := hok m0 (List.mem_cons_self m0 ms1)
      have hrest : ∀ m1 ∈ ms1, ex (command cfg i m1) = 0 := fun m1 hm1 =>
        hok m1 (List.mem_cons_of_mem m0 hm1)
      simp [runInner, runCombo_ok cfg slaves ex i m0 h0, ih hrest]

theorem runOuter_fail (cfg : Config) (slaves : List String) (ex : String → Int)
    (is1 : List Int) (i : Int) (is2 : List Int)
    (ms1 : List Int) (m : Int) (ms2 : List Int)
    (hmults : cfg.num_tasks_multiplier_values = ms1 ++ m :: ms2)
    (hok1 : ∀ i0 ∈ is1, ∀ m0 ∈ cfg.num_tasks_multiplier_values,
      ex (command cfg i0 m0) = 0)
    (hok2 : ∀ m0 ∈ ms1, ex (command cfg i m0) = 0)
    (hfail : ex (command cfg i m) ≠ 0) :
    runOuter cfg slaves ex (is1 ++ i :: is2) =
      ((is1.map fun i0 => (cfg.num_tasks_multiplier_values.map fun m0 =>
          comboBlockOk cfg slaves i0 m0).flatten).flatten ++
        ((ms1.map fun m0 => comboBlockOk cfg slaves i m0).flatten ++
          comboBlockFail cfg i m), false) := by
  induction is1 with
  | nil =>
      simp only [List.nil_append, List.map_nil, List.flatten_nil]
      have hinner : runInner cfg slaves ex i cfg.num_tasks_multiplier_values =
          ((ms1.map fun m0 => comboBlockOk cfg slaves i m0).flatten ++
            comboBlockFail cfg i m, false) := by
        rw [hmults]
        exact runInner_fail cfg slaves ex i ms1 m ms2 hok2 hfail
      simp [runOuter, hinner]
  | cons i0 is1 ih =>
      have h0 : ∀ m0 ∈ cfg.num_tasks_multiplier_values,
          ex (command cfg i0 m0) = 0 := hok1 i0 (List.mem_cons_self i0 is1)
      have hrest : ∀ i1 ∈ is1, ∀ m0 ∈ cfg.num_tasks_multiplier_values,
          ex (command cfg i1 m0) = 0 := fun i1 hi1 =>
        hok1 i1 (List.mem_cons_of_mem i0 hi1)
      simp [runOuter, runInner_ok cfg slaves ex i0 _ h0, ih hrest]

theorem sweep_fail (cfg : Config) (slaves : List String) (ex : String → Int)
    (is1 : List Int) (i : Int) (is2 : List Int)
    (ms1 : List Int) (m : Int) (ms2 : List Int)
    (hitems : cfg.items_per_partition_values = is1 ++ i :: is2)
    (hmults : cfg.num_tasks_multiplier_values = ms1 ++ m :: ms2)
    (hok1 : ∀ i0 ∈ is1, ∀ m0 ∈ cfg.num_tasks_multiplier_values,
      ex (command cfg i0 m0) = 0)
    (hok2 : ∀ m0 ∈ ms1, ex (command cfg i m0) = 0)
    (hfail : ex (command cfg i m) ≠ 0) :
    sweep cfg slaves ex =
      (((combosOf is1 cfg.num_tasks_multiplier_values).map fun p =>
          comboBlockOk cfg slaves p.1 p.2).flatten ++
        ((ms1.map fun m0 => comboBlockOk cfg slaves i m0).flatten ++
          comboBlockFail cfg i m), false) := by
  rw [sweep, hitems,
    runOuter_fail cfg slaves ex is1 i is2 ms1 m ms2 hmults hok1 hok2 hfail,
    flatten_map_pair (fun i0 m0 => comboBlockOk cfg slaves i0 m0)]

/-! ### The timer -/

theorem timerReport_eq_sum (start : Rat) (delays : List Rat) :
    timerReport start delays = delays.sum := by
  rw [timerReport]
  ring

theorem timerReport_nonneg (start : Rat) (delays : List Rat)
    (h : ∀ d ∈ delays, 0 ≤ d) : 0 ≤ timerReport start delays := by
  rw [timerReport_eq_sum]
  exact List.sum_nonneg h

theorem timerReport_mono (start : Rat) (delays delays2 : List Rat)
    (h : List.Forall₂ (· ≤ ·) delays delays2) :
    timerReport start delays ≤ timerReport start delays2 := by
  rw [timerReport_eq_sum, timerReport_eq_sum]
  exact List.Forall₂.sum_le_sum h

/-! ### The whole script -/

theorem runScript_exit0 (cfg : Config) (content : String) (start : Rat)
    (delays : List Rat) :
    runScript cfg content exit0 start delays =
      (Event.printed (slavesHeader (slavesOf content)) ::
        (((combos cfg).map fun p =>
          comboBlockOk cfg (slavesOf content) p.1 p.2).flatten ++
          [Event.printed (timeLine start delays)]), true) := by
  rw [runScript]
  simp [sweep_exit0 cfg (slavesOf content)]

theorem runScript_dropLast (cfg : Config) (content : String)
    (ex : String → Int) (t1 t2 : Rat) (ds1 ds2 : List Rat) :
    ((runScript cfg content ex t1 ds1).1).dropLast =
      ((runScript cfg content ex t2 ds2).1).dropLast := by
  rw [runScript, runScript]
  cases h : (sweep cfg (slavesOf content) ex).2 with
  | false => simp [h]
  | true =>
      simp only [h, if_true]
      rw [List.dropLast_concat, List.dropLast_concat]

theorem runScript_getLast_exit0 (cfg : Config) (content : String)
    (start : Rat) (delays : List Rat) :
    ((runScript cfg content exit0 start delays).1).getLast? =
      some (Event.printed (timeLine start delays)) := by
  rw [runScript_exit0]
  show ((Event.printed (slavesHeader (slavesOf content)) ::
    ((combos cfg).map fun p =>
      comboBlockOk cfg (slavesOf content) p.1 p.2).flatten) ++
    [Event.printed (timeLine start delays)]).getLast? = _
  exact List.getLast?_concat _

/-! ### Miscellaneous helper lemmas -/

theorem sweep_empty_mults (cfg : Config) (slaves : List String)
    (ex : String → Int) (h : cfg.num_tasks_multiplier_values = []) :
    sweep cfg slaves ex = ([], true) := by
  rw [sweep]
  induction cfg.items_per_partition_values with
  | nil => rfl
  | cons i is ih => simp [runOuter, runInner, h, ih]

theorem invokedCmds_okRow (cfg : Config) (slaves : List String) (i : Int)
    (ms : List Int) :
    invokedCmds ((ms.map fun m0 => comboBlockOk cfg slaves i m0).flatten)
      = ms.map fun m0 => command cfg i m0 := by
  induction ms with
  | nil => rfl
  | cons m0 ms ih =>
      simp only [List.map_cons, List.flatten_cons, invokedCmds_append, ih]
      rfl

theorem archivedParams_okRow (cfg : Config) (slaves : List String) (i : Int)
    (ms : List Int) :
    archivedParams ((ms.map fun m0 => comboBlockOk cfg slaves i m0).flatten)
      = ms.map fun m0 => stringified_parameters cfg i m0 := by
  induction ms with
  | nil => rfl
  | cons m0 ms ih =>
      simp only [List.map_cons, List.flatten_cons, archivedParams_append, ih]
      rfl

theorem count_pair_map (i0 : Int) (ms : List Int) (i m : Int) :
    ((ms.map fun m0 => (i0, m0)).count (i, m)) =
      if i0 = i then ms.count m else 0 := by
  induction ms with
  | nil => simp
  | cons m0 ms ih =>
      simp only [List.map_cons, List.count_cons, ih]
      by_cases h : i0 = i <;> by_cases h2 : m0 = m <;>
        simp [h, h2, Prod.ext_iff, beq_iff_eq]

theorem combosOf_count (is ms : List Int) (i m : Int) :
    (combosOf is ms).count (i, m) = is.count i * ms.count m := by
  rw [combosOf]
  induction is with
  | nil => simp
  | cons i0 is ih =>
      simp only [List.map_cons, List.flatten_cons, List.count_append, ih,
        count_pair_map]
      by_cases h : i0 = i <;>
        simp [List.count_cons, h, Nat.succ_mul, Nat.add_comm]

theorem intercalate_seven (s a b c d e f g : String) :
    String.intercalate s [a, b, c, d, e, f, g] =
      a ++ s ++ b ++ s ++ c ++ s ++ d ++ s ++ e ++ s ++ f ++ s ++ g := rfl

/-! ### The claims -/

/-- C1: for every list of N items-per-partition values and M task-multiplier
values, the (everywhere-succeeding) sweep performs exactly N×M external
invocations, one per combination in order; in each, the producing and
consuming task counts are the multiplier times the base count
(num_machines × cores_per_machine).  With the literal configuration
(items-per-partition [8000000], multipliers [1,2,4,8,16,32], base count 8)
exactly 6 invocations occur, with producing-task counts 8, 16, 32, 64, 128,
256, each immediately followed by one archiver call. -/
theorem claim_C1 (cfg : Config) (slaves : List String) :
    ((invokedCmds (sweep cfg slaves exit0).1).length =
      cfg.items_per_partition_values.length *
        cfg.num_tasks_multiplier_values.length)
  ∧ invokedCmds (sweep cfg slaves exit0).1 =
      ((combos cfg).map fun p => command cfg p.1 p.2)
  ∧ (∀ i m : Int, (stringified_parameters cfg i m).take 2 =
      [toString (m * (cfg.num_machines * cfg.cores_per_machine)),
       toString (m * (cfg.num_machines * cfg.cores_per_machine))])
  ∧ base_num_map_tasks literalConfig = 8
  ∧ (invokedCmds (sweep literalConfig slaves exit0).1).length = 6
  ∧ ((combos literalConfig).map fun p =>
      (stringified_parameters literalConfig p.1 p.2).headI) =
      ["8", "16", "32", "64", "128", "256"]
  ∧ invokesArchived (sweep literalConfig slaves exit0).1 = true := by
  have hcmds : invokedCmds (sweep cfg slaves exit0).1 =
      ((combos cfg).map fun p => command cfg p.1 p.2) := by
    rw [sweep_exit0, invokedCmds_okBlocks]
  refine ⟨?_, hcmds, ?_, rfl, ?_, ?_, ?_⟩
  · rw [hcmds, List.length_map, combos_length]
  · intro i m
    simp [stringified_parameters, parameters, pyFormat, num_map_tasks,
      num_reduce_tasks, base_num_map_tasks, base_num_reduce_tasks]
  · rw [sweep_exit0, invokedCmds_okBlocks, List.length_map]
    rfl
  · rfl
  · rw [sweep_exit0]
    exact invokesArchived_okBlocks literalConfig slaves (combos literalConfig)

/-- C2: for every parameter combination the constructed command string is the
fixed executable path and subcommand followed by exactly seven space-joined
stringified arguments, in the order: producing-task count, consuming-task
count, items per partition, values encoded per item, shuffle-round count,
sort-order flag, caching flag. -/
theorem claim_C2 (cfg : Config) (items_per_partition num_tasks_multiplier : Int) :
    command cfg items_per_partition num_tasks_multiplier =
      "/root/spark/bin/run-example monotasks.ShuffleJob " ++
        (toString (num_map_tasks cfg num_tasks_multiplier) ++ " " ++
         toString (num_reduce_tasks cfg num_tasks_multiplier) ++ " " ++
         toString items_per_partition ++ " " ++
         toString cfg.longs_per_value ++ " " ++
         toString cfg.num_shuffles ++ " " ++
         (if cfg.sortByKey then "True" else "False") ++ " " ++
         (if cfg.cacheRdd then "True" else "False"))
  ∧ (stringified_parameters cfg items_per_partition
      num_tasks_multiplier).length = 7 := by
  constructor
  · rw [command, stringified_parameters, parameters]
    simp only [List.map_cons, List.map_nil, pyFormat]
    rw [intercalate_seven]
  · rfl

/-- C6: the sort-order flag and caching flag are fixed configuration applied
uniformly: the last two argument positions of every constructed parameter
list are the stringified `sortByKey` and `cacheRdd` flags, they do not vary
with the swept parameters, and in the literal configuration both are
`False`. -/
theorem claim_C6 (cfg : Config) (i m i2 m2 : Int) :
    (stringified_parameters cfg i m).drop 5 =
      [if cfg.sortByKey then "True" else "False",
       if cfg.cacheRdd then "True" else "False"]
  ∧ (stringified_parameters cfg i m).drop 5 =
      (stringified_parameters cfg i2 m2).drop 5
  ∧ (stringified_parameters literalConfig i m).drop 5 = ["False", "False"]
  ∧ literalConfig.sortByKey = false ∧ literalConfig.cacheRdd = false := by
  refine ⟨?_, rfl, rfl, rfl, rfl⟩
  simp [stringified_parameters, parameters, pyFormat]

/-- C9: in every invocation the producing-task count equals the
consuming-task count: both base counts are `num_machines * cores_per_machine`
and both task counts are the multiplier times that base, so the first two
command arguments are always equal. -/
theorem claim_C9 (cfg : Config) (i m : Int) :
    base_num_map_tasks cfg = base_num_reduce_tasks cfg
  ∧ num_map_tasks cfg m = num_reduce_tasks cfg m
  ∧ (stringified_parameters cfg i m).take 2 =
      [toString (num_map_tasks cfg m), toString (num_map_tasks cfg m)]
  ∧ (stringified_parameters cfg i m).get? 0 =
      (stringified_parameters cfg i m).get? 1 := by
  refine ⟨rfl, rfl, ?_, rfl⟩
  simp [stringified_parameters, parameters, pyFormat, num_map_tasks,
    num_reduce_tasks, base_num_map_tasks, base_num_reduce_tasks]

/-- C5: iteration over parameter combinations is deterministic: the outer
loop runs over the items-per-partition list and the inner loop over the
multiplier list, in literal list order; no combination is skipped or
deduplicated; exactly one external invocation per combination; empty input
lists produce zero iterations, with no external invocation and no archiver
call. -/
theorem claim_C5 (cfg : Config) (slaves : List String) (ex : String → Int) :
    (cfg.items_per_partition_values = [] → sweep cfg slaves ex = ([], true))
  ∧ (cfg.num_tasks_multiplier_values = [] → sweep cfg slaves ex = ([], true))
  ∧ (sweep cfg slaves exit0).1 =
      ((combosOf cfg.items_per_partition_values
          cfg.num_tasks_multiplier_values).map fun p =>
        comboBlockOk cfg slaves p.1 p.2).flatten
  ∧ invokedCmds (sweep cfg slaves exit0).1 =
      ((combos cfg).map fun p => command cfg p.1 p.2)
  ∧ (∀ i m : Int, (combos cfg).count (i, m) =
      cfg.items_per_partition_values.count i *
        cfg.num_tasks_multiplier_values.count m) := by
  refine ⟨?_, ?_, ?_, ?_, ?_⟩
  · intro h
    rw [sweep, h]
    rfl
  · exact sweep_empty_mults cfg slaves ex
  · rw [sweep_exit0]
    rfl
  · rw [sweep_exit0, invokedCmds_okBlocks]
  · intro i m
    exact combosOf_count _ _ i m

/-- A configuration whose data-size list is empty, for the C5 witness. -/
def emptyItemsConfig : Config where
  num_machines := 1
  cores_per_machine := 8
  items_per_partition_values := []
  num_tasks_multiplier_values := [1, 2]
  longs_per_value := 6
  num_shuffles := 6
  sortByKey := false
  cacheRdd := false

/-- Witness for C5: with an empty data-size list the sweep produces zero
iterations, performing no invocation and no archiver call. -/
theorem claim_C5_witness :
    sweep emptyItemsConfig [] exit0 = ([], true) :=
  (claim_C5 emptyItemsConfig [] exit0).1 rfl

/-- C3: if an external invocation returns a nonzero exit status, the sweep
terminates immediately: the trace consists of the successful blocks that
precede the failing combination, then only the banner, the printed command
and the invocation of the failing combination — no archiver call for it, no
retry, and no event for any subsequent combination. -/
theorem claim_C3 (cfg : Config) (slaves : List String) (ex : String → Int)
    (is1 : List Int) (i : Int) (is2 ms1 : List Int) (m : Int) (ms2 : List Int)
    (hitems : cfg.items_per_partition_values = is1 ++ i :: is2)
    (hmults : cfg.num_tasks_multiplier_values = ms1 ++ m :: ms2)
    (hok1 : ∀ i0 ∈ is1, ∀ m0 ∈ cfg.num_tasks_multiplier_values,
      ex (command cfg i0 m0) = 0)
    (hok2 : ∀ m0 ∈ ms1, ex (command cfg i m0) = 0)
    (hfail : ex (command cfg i m) ≠ 0) :
    sweep cfg slaves ex =
      (((combosOf is1 cfg.num_tasks_multiplier_values).map fun p =>
          comboBlockOk cfg slaves p.1 p.2).flatten ++
        ((ms1.map fun m0 => comboBlockOk cfg slaves i m0).flatten ++
          comboBlockFail cfg i m), false)
  ∧ (sweep cfg slaves ex).2 = false
  ∧ archivedParams (sweep cfg slaves ex).1 =
      ((combosOf is1 cfg.num_tasks_multiplier_values).map fun p =>
        stringified_parameters cfg p.1 p.2) ++
       (ms1.map fun m0 => stringified_parameters cfg i m0)
  ∧ (invokedCmds (sweep cfg slaves ex).1).length =
      is1.length * cfg.num_tasks_multiplier_values.length + ms1.length + 1 := by
  have htr := sweep_fail cfg slaves ex is1 i is2 ms1 m ms2 hitems hmults
    hok1 hok2 hfail
  refine ⟨htr, by rw [htr], ?_, ?_⟩
  · rw [htr]
    simp only [archivedParams_append, archivedParams_okBlocks,
      archivedParams_okRow]
    simp [comboBlockFail, archivedParams]
  · rw [htr]
    simp only [invokedCmds_append, invokedCmds_okBlocks, invokedCmds_okRow]
    simp [comboBlockFail, invokedCmds, combosOf_length]
    ring

/-- A small configuration for the C3 witness. -/
def failConfig : Config where
  num_machines := 1
  cores_per_machine := 2
  items_per_partition_values := [10]
  num_tasks_multiplier_values := [1, 2, 3]
  longs_per_value := 6
  num_shuffles := 6
  sortByKey := false
  cacheRdd := false

/-- An exit-status oracle that fails exactly on the second combination of
`failConfig`. -/
def failOnSecond : String → Int :=
  fun c => if c = command failConfig 10 2 then 1 else 0

/-- Witness for C3: with the second of three combinations failing, the sweep
aborts — the run is marked failed and exactly one archiver call (for the
first combination) took place. -/
theorem claim_C3_witness :
    (sweep failConfig ["w1"] failOnSecond).2 = false ∧
    (invokedCmds (sweep failConfig ["w1"] failOnSecond).1).length = 2 :=
  have h := claim_C3 failConfig ["w1"] failOnSecond [] 10 [] [1] 2 [3]
    rfl rfl (by simp) (by decide) (by decide)
  ⟨h.2.1, by rw [h.2.2.2]; rfl⟩

/-- C4: parsing a worker-host configuration file of K lines, each terminated
by a trailing newline, yields exactly K hostname strings in file order, none
containing a newline (in particular no trailing newline). -/
theorem claim_C4 (hs : List String)
    (h : ∀ s ∈ hs, newlineChar ∉ s.toList) :
    slavesOf (String.mk
        ((hs.map fun s => s.toList ++ [newlineChar]).flatten)) = hs
  ∧ (slavesOf (String.mk
        ((hs.map fun s => s.toList ++ [newlineChar]).flatten))).length =
      hs.length
  ∧ ∀ s ∈ slavesOf (String.mk
        ((hs.map fun s => s.toList ++ [newlineChar]).flatten)),
      newlineChar ∉ s.toList := by
  have heq := slavesOf_terminated hs h
  exact ⟨heq, by rw [heq], by rw [heq]; exact h⟩

/-- Witness for C4: a two-line slaves file yields the two hostnames, in
order, without newline characters. -/
theorem claim_C4_witness :
    slavesOf (String.mk
        (([("alpha" : String), "b c"].map fun s =>
          s.toList ++ [newlineChar]).flatten)) = ["alpha", "b c"] :=
  (claim_C4 ["alpha", "b c"] (by decide)).1

/-- C10: worker-host parsing removes only newline characters, from both ends
of each line: surrounding newlines are stripped while any newline-free
content — including inner or surrounding non-newline whitespace — is kept
verbatim; a line consisting solely of a newline yields an empty hostname
string, which is kept in the list passed to the archiver. -/
theorem claim_C10 :
    (∀ (s : String) (k m : Nat), newlineChar ∉ s.toList →
      pyStripNewlines (String.mk (List.replicate k newlineChar ++ s.toList ++
        List.replicate m newlineChar)) = s)
  ∧ slavesOf newlineStr = [""]
  ∧ archivedSlaves (runScript literalConfig newlineStr exit0 0 []).1 =
      List.replicate 6 [""] := by
  refine ⟨?_, rfl, ?_⟩
  · intro s k m h
    exact pyStripNewlines_padded s.toList h k m
  · rw [runScript_exit0]
    show archivedSlaves (((combos literalConfig).map fun p =>
      comboBlockOk literalConfig (slavesOf newlineStr) p.1 p.2).flatten ++
      [Event.printed (timeLine 0 [])]) = _
    rfl

/-- Witness for C10: stripping a padded newline-free hostname (with inner
whitespace) returns it verbatim. -/
theorem claim_C10_witness :
    pyStripNewlines (String.mk (List.replicate 1 newlineChar ++
      (" host \t" : String).toList ++ List.replicate 2 newlineChar)) =
      " host \t" :=
  claim_C10.1 " host \t" 1 2 (by decide)

/-- C7: the sweep timer records a timestamp before the first iteration and
one after the last, reporting their difference (the accumulated
per-iteration time) at program end; the reported elapsed time is
non-negative and monotone in the per-iteration delays; no per-iteration
timing is recorded: the trace is independent of the clock except for the
final elapsed-time line. -/
theorem claim_C7 (start : Rat) (delays delays2 : List Rat)
    (h1 : ∀ d ∈ delays, 0 ≤ d)
    (h2 : List.Forall₂ (· ≤ ·) delays delays2) :
    timerReport start delays = delays.sum
  ∧ 0 ≤ timerReport start delays
  ∧ timerReport start delays ≤ timerReport start delays2
  ∧ (∀ (cfg : Config) (content : String) (ex : String → Int)
      (t1 t2 : Rat) (ds1 ds2 : List Rat),
      ((runScript cfg content ex t1 ds1).1).dropLast =
        ((runScript cfg content ex t2 ds2).1).dropLast)
  ∧ (∀ (cfg : Config) (content : String),
      ((runScript cfg content exit0 start delays).1).getLast? =
        some (Event.printed
          ("Matrix script took" ++ toString (timerReport start delays)))) :=
  ⟨timerReport_eq_sum start delays,
   timerReport_nonneg start delays h1,
   timerReport_mono start delays delays2 h2,
   fun cfg content ex t1 t2 ds1 ds2 =>
     runScript_dropLast cfg content ex t1 t2 ds1 ds2,
   fun cfg content => runScript_getLast_exit0 cfg content start delays⟩

/-- Witness for C7: with start timestamp 3 and per-iteration delays 1 and 2,
the reported duration is non-negative and does not exceed the one with the
delays enlarged to 2 and 3. -/
theorem claim_C7_witness :
    0 ≤ timerReport 3 [1, 2] ∧
      timerReport 3 [1, 2] ≤ timerReport 3 [2, 3] :=
  have h := claim_C7 3 [1, 2] [2, 3] (by norm_num)
    (List.Forall₂.cons (by norm_num)
      (List.Forall₂.cons (by norm_num) List.Forall₂.nil))
  ⟨h.2.1, h.2.2.1⟩

/-- C8 counterexample: the claim says standard output contains one
announcement banner per data-size value, but with the literal configuration
(one data-size value, six multipliers) the banner line is printed six times
— once per combination — so the banner count differs from the number of
data-size values. -/
theorem claim_C8_counterexample :
    ¬ ((printedLines (runScript literalConfig newlineStr exit0 0 []).1).count
        (experimentBanner 8000000) =
      literalConfig.items_per_partition_values.length) := by
  decide

/-- C8 (amended): the script's standard output consists of an initial line
announcing the parsed worker-host list, then for each parameter combination
an announcement banner (repeating that combination's data-size value)
followed by the constructed command line, printed before that combination's
external process is executed, and one final elapsed-time line. -/
theorem claim_C8_amended (cfg : Config) (content : String) (start : Rat)
    (delays : List Rat) :
    printedLines (runScript cfg content exit0 start delays).1 =
      slavesHeader (slavesOf content) ::
        (((combos cfg).map fun p =>
          [experimentBanner p.1, command cfg p.1 p.2]).flatten ++
          [timeLine start delays])
  ∧ (runScript cfg content exit0 start delays).1 =
      Event.printed (slavesHeader (slavesOf content)) ::
        (((combos cfg).map fun p =>
          comboBlockOk cfg (slavesOf content) p.1 p.2).flatten ++
          [Event.printed (timeLine start delays)]) := by
  have htr := runScript_exit0 cfg content start delays
  refine ⟨?_, by rw [htr]⟩
  rw [htr]
  show printedLines (Event.printed (slavesHeader (slavesOf content)) ::
    (((combos cfg).map fun p =>
      comboBlockOk cfg (slavesOf content) p.1 p.2).flatten ++
      [Event.printed (timeLine start delays)])) = _
  rw [printedLines_cons_printed]
  simp only [printedLines_append, printedLines_okBlocks]
  rfl

end RunShuffleJobs
